import Mathlib

/-!
Verification development for the xbench transaction generator
(`cmd/generate/cli/contract.go` and `cases/contract/short_content.go`).

The Go source is shallowly embedded: Go `int` values become `ℤ` (Go's `/` on
`int` truncates toward zero, which is `Int.tdiv`), `float32` arithmetic is
modelled exactly on `ℚ` via an explicit round-to-nearest-even rounding
function, and the worker loop of `Consumer` becomes a recursive function on
an abstract stream of generator outcomes.
-/

namespace XBench

/-! ### Exact model of IEEE-754 binary32 (`float32`) arithmetic

The only floating-point computation in the source is
`total := int(float32(t.total/t.concurrency) * 1.1)` (contract.go line 141 and
transaction.go line 292).  All values arising there are far inside the normal
range of `float32` (magnitude `0` or between `1` and `2^70`), so the model
covers `0` and the normal range; subnormals, overflow, infinities and NaN are
never reached by the embedded computations and are not modelled. -/

/-- Round a rational to the nearest integer, breaking ties toward the even
integer, exactly as IEEE-754 round-to-nearest-even does for the significand. -/
def roundNearestEven (x : ℚ) : ℤ :=
  let f := ⌊x⌋
  let r := x - f
  if r < 1/2 then f
  else if 1/2 < r then f + 1
  else if f % 2 = 0 then f else f + 1

/-- Floor of the base-2 logarithm of a positive rational, used to find the
binade (exponent) of a `float32` value. -/
def floorLog2 (x : ℚ) : ℤ :=
  if 1 ≤ x then (Nat.log 2 ⌊x⌋.toNat : ℤ)
  else -(Nat.clog 2 ⌈x⁻¹⌉.toNat : ℤ)

/-- Round a positive rational to the `float32` grid: 24 significant bits,
round-to-nearest-even. -/
def toF32Pos (x : ℚ) : ℚ :=
  let e : ℤ := floorLog2 x - 23
  (roundNearestEven (x * (2:ℚ) ^ (-e)) : ℚ) * (2:ℚ) ^ e

/-- Value of a rational after rounding to `float32` (round-to-nearest-even,
normal range; see the section comment). -/
def toF32 (x : ℚ) : ℚ :=
  if x = 0 then 0
  else if 0 < x then toF32Pos x
  else -toF32Pos (-x)

/-- Go conversion `int(f)` for a `float32` value `f`: truncation toward zero. -/
def intTrunc (x : ℚ) : ℤ := if 0 ≤ x then ⌊x⌋ else -⌊-x⌋

/-- Result of one `float32` multiplication `a * b` (the product is rounded back
to the `float32` grid). -/
def f32Mul (a b : ℚ) : ℚ := toF32 (a * b)

/-- Per-worker quota computed by `ContractCommand.generate` (contract.go line
141) and `TransactionCommand.generate` (transaction.go line 292):
`total := int(float32(t.total/t.concurrency) * 1.1)`.
Go `/` on `int` truncates toward zero (`Int.tdiv`); the `int`→`float32`
conversion and the untyped constant `1.1` round to the nearest `float32`; the
product is a `float32` multiplication; `int(...)` truncates toward zero. -/
def perWorkerQuota (total concurrency : ℤ) : ℤ :=
  intTrunc (f32Mul (toF32 ((Int.tdiv total concurrency : ℤ) : ℚ)) (toF32 (11/10)))

/-- Per-shard transaction count claimed by the spec (§8): the words
`floor((runTotal/concurrency) * 1.1)` read with exact rational arithmetic,
written down only to be compared against `perWorkerQuota`. -/
def specQuota (total concurrency : ℤ) : ℤ :=
  ⌊((total : ℚ) / (concurrency : ℚ)) * (11/10)⌋

/-! ### Model of the worker loop in `Consumer` (contract.go lines 306-340)

Each of the `concurrency` goroutines runs the same loop; the goroutines share
no state that influences the records they write (each owns `encoders[i]`
exclusively, and the shared counter `inc` only feeds logging), so one worker
is modelled as a sequential function of its own stream of generator and
consume outcomes. -/

/-- Outcome of one call `generator.Generate(i)` inside a worker goroutine;
the successive calls made by one worker are modelled as a stream indexed by
the iteration number. -/
inductive GenResult (τ : Type) where
  | ok : τ → GenResult τ
  | err : String → GenResult τ
deriving DecidableEq

/-- Cause of a worker goroutine of `Consumer` returning.  `fatalGenerate`
models the `log.Fatalf` on a `Generate` error (line 317), which exits the
whole process.  `encodeFatal` models a non-nil error from the `consume`
callback (line 321); both callbacks installed by the `generate` functions
(contract.go line 144, transaction.go line 295) have already executed
`log.Fatalf` on that path, so it too exits the process.  `quotaReached` is
the normal return through the `count >= total` check (line 333). -/
inductive WorkerExit where
  | quotaReached
  | fatalGenerate : String → WorkerExit
  | encodeFatal : String → WorkerExit
deriving DecidableEq

/-- One worker goroutine of `Consumer` (contract.go lines 311-337), entered
with `count = c`: call `Generate`, hand the value to `consume`, increment
`count`, and return once `count >= total`.  The result is the list of values
successfully consumed — the records appended to the worker's shard file — and
the exit cause.  The batched progress-counter update (lines 326-331) feeds
only logging and is omitted. -/
def workerLoop {τ : Type} (gen : ℕ → GenResult τ) (cons : ℕ → τ → Option String)
    (total : ℤ) (c : ℕ) : List τ × WorkerExit :=
  match gen c with
  | .err e => ([], .fatalGenerate e)
  | .ok tx =>
    match cons c tx with
    | some e => ([], .encodeFatal e)
    | none =>
      if (c : ℤ) + 1 ≥ total then ([tx], .quotaReached)
      else
        let r := workerLoop gen cons total (c + 1)
        (tx :: r.1, r.2)
termination_by (total - c).toNat
decreasing_by omega

/-! ### Model of the contract subcommand CLI layer (contract.go lines 22-157) -/

/-- Flag state of the contract subcommand (contract.go lines 22-40), one field
per flag registered in `addFlags` (lines 67-76).  Go `int` is embedded as `ℤ`. -/
structure ContractCommand where
  host : String
  total : ℤ
  concurrency : ℤ
  output : String
  process : ℤ
  child : ℤ
  length : ℤ
deriving DecidableEq

/-- What `RunE` of the contract subcommand does (contract.go lines 48-61):
`process == 1` runs `generate` directly in this process, anything else runs
the spawn loop. -/
inductive ContractAction where
  | runGenerate
  | runOrchestrator
deriving DecidableEq

/-- Dispatch performed by `RunE` (contract.go line 50). -/
def contractDispatch (t : ContractCommand) : ContractAction :=
  if t.process = 1 then .runGenerate else .runOrchestrator

/-- Decimal digit characters of a natural number, most significant first: the
digits printed by Go's `%d`/`%04d` verbs and `strconv` for a nonnegative
value. -/
def decDigits (n : ℕ) : List Char :=
  if n < 10 then [Char.ofNat (48 + n)]
  else decDigits (n / 10) ++ [Char.ofNat (48 + n % 10)]
termination_by n
decreasing_by omega

/-- Left-pad a digit list with the character `0` to width `w`, never
truncating, as Go's zero-padding width flag does. -/
def zeroPad (w : ℕ) (ds : List Char) : List Char :=
  List.replicate (w - ds.length) '0' ++ ds

/-- Go's `fmt.Sprintf("%04d", n)` for an `int` argument: decimal digits
zero-padded to a minimum total width of 4, a minus sign occupying the first
column for a negative value. -/
def fmt04d (n : ℤ) : String :=
  if n < 0 then String.mk ('-' :: zeroPad 3 (decDigits n.natAbs))
  else String.mk (zeroPad 4 (decDigits n.toNat))

/-- Go's `strconv.Itoa` / `strconv.FormatInt(·, 10)`. -/
def intRepr (n : ℤ) : String :=
  if n < 0 then String.mk ('-' :: decDigits n.natAbs)
  else String.mk (decDigits n.toNat)

/-- Shard filename built by `ContractCommand.generate` (contract.go line 132):
`fmt.Sprintf("short_content.dat.%04d", t.child*t.concurrency+i)`. -/
def shardFilename (idx : ℤ) : String := "short_content.dat." ++ fmt04d idx

/-- Names of the shard files created by one process of the contract
subcommand (contract.go lines 130-138), one per worker index
`0 <= i < concurrency` (the loop body runs for no index when
`concurrency <= 0`). -/
def contractShardFiles (t : ContractCommand) : List String :=
  (List.range t.concurrency.toNat).map (fun i : ℕ => shardFilename (t.child * t.concurrency + (i : ℤ)))

/-- Shard indices used by the process running as child `c` with `C` workers
(contract.go line 132). -/
def childShardIndices (c C : ℕ) : List ℕ := (List.range C).map (fun i => c * C + i)

/-- Shard indices used across a whole run: the orchestrator starts child
processes `0..P-1` (contract.go lines 55-58), and the child with index `c`
uses shard indices `c*C + i` for worker indices `0 <= i < C` (line 132). -/
def runShardIndices (P C : ℕ) : List ℕ :=
  (List.range P).flatMap (fun c => childShardIndices c C)

/-- Fields of `cases.Config` as used by the embedded commands. -/
structure CasesConfig where
  host : String
  total : ℤ
  concurrency : ℤ
  args : List (String × String)
deriving DecidableEq

/-- The `cases.Config` literal built by `ContractCommand.generate`
(contract.go lines 101-118): `Host` and the `length` argument are hardcoded
string literals, taken neither from the `--host` nor from the `--length`
flag. -/
def contractGenerateConfig (t : ContractCommand) : CasesConfig :=
  { host := "127.0.0.1:37101"
    total := t.total
    concurrency := t.concurrency
    args := [("contract_name", "short_content"),
             ("contract_account", "XC1111111111111111@xuper"),
             ("length", "1024"),
             ("code_path", "data/contract/short_content.wasm"),
             ("module_name", "wasm"),
             ("method_name", "storeShortContent"),
             ("amount", "999999"),
             ("user_id", "user_id"),
             ("title", "title"),
             ("topic", "topic"),
             ("content", "content")] }

/-- Argument vector handed to `exec.Command` by `ContractCommand.spawn`
(contract.go lines 79-87), after the program path: the child re-runs the
`contract` subcommand with its slice of the total, `--process` pinned to
`"1"` and its own child index; no `--host` flag is forwarded. -/
def contractSpawnArgv (t : ContractCommand) (child : ℤ) : List String :=
  ["contract",
   "--total", intRepr (Int.tdiv t.total t.process),
   "--length", intRepr t.length,
   "--output", t.output,
   "--concurrency", intRepr t.concurrency,
   "--process", "1",
   "--child", intRepr child]

/-- The child processes spawned by the orchestrator branch of `RunE`
(contract.go lines 54-59): one `spawn` call for each child index
`0..process-1`. -/
def contractChildren (t : ContractCommand) : List (List String) :=
  (List.range t.process.toNat).map (fun i : ℕ => contractSpawnArgv t (i : ℤ))

/-! ### Orchestrator error handling (contract.go lines 90-96, transaction.go lines 254-260) -/

/-- Exit outcome of one spawned child process: `cmd.Run()` returns nil, or a
non-nil error carrying the nonzero exit status. -/
inductive ChildOutcome where
  | success
  | failed : String → ChildOutcome
deriving DecidableEq

/-- Outcome of the orchestrating process as a whole. -/
inductive RunOutcome where
  | completed
  | aborted : String → RunOutcome
deriving DecidableEq

/-- Body of the goroutine started by `spawn` (contract.go lines 90-96,
transaction.go lines 254-260): `err := cmd.Run(); if err != nil { panic(err) }`.
An unrecovered panic in any goroutine terminates the whole program with a
nonzero exit status, so a child error is fatal to the orchestrating process;
the code has no restart path. -/
def childWait : ChildOutcome → RunOutcome
  | .success => .completed
  | .failed e => .aborted e

/-- Outcome of the orchestrating process given every child's exit outcome:
it completes only if every goroutine's `cmd.Run()` returned nil, and aborts
with a failing child's error otherwise. -/
def orchestrate (rs : List ChildOutcome) : RunOutcome :=
  match rs with
  | [] => .completed
  | r :: rest =>
    match childWait r with
    | .aborted e => .aborted e
    | .completed => orchestrate rest

/-! ### Model of the tx subcommand (transaction.go lines 181-262) -/

/-- Flag state of the tx subcommand (transaction.go lines 181-199). -/
structure TransactionCommand where
  host : String
  amount : String
  total : ℤ
  concurrency : ℤ
  output : String
  process : ℤ
  child : ℤ
deriving DecidableEq

/-- Observable steps taken by `RunE` of the tx subcommand: a Funding Splitter
invocation (with its host, amount and account count), the spawning of one
child process, or running generation directly. -/
inductive TxStep where
  | splitTx : String → String → ℤ → TxStep
  | spawnChild : ℤ → TxStep
  | generateDirect : TxStep
deriving DecidableEq

/-- Whether a step is an invocation of the Funding Splitter. -/
def TxStep.isSplit : TxStep → Bool
  | .splitTx _ _ _ => true
  | _ => false

/-- Whether a step spawns a child process. -/
def TxStep.isSpawn : TxStep → Bool
  | .spawnChild _ => true
  | _ => false

/-- Trace and result of `RunE` of the tx subcommand (transaction.go lines
207-224).  The outcomes of the external collaborators are abstracted:
`splitRes` is what `lib.SplitTx(t.host, lib.Bank, t.amount,
t.concurrency*t.process)` returns, `genRes` what `t.generate(ctx)` returns.
When `process != 1`, `SplitTx` runs first; a non-nil error is returned at
once (no spawn), otherwise one child is spawned per index `0..process-1`. -/
def txRunE (t : TransactionCommand) (splitRes genRes : Option String) :
    List TxStep × Option String :=
  if t.process = 1 then ([.generateDirect], genRes)
  else
    match splitRes with
    | some e => ([.splitTx t.host t.amount (t.concurrency * t.process)], some e)
    | none => (.splitTx t.host t.amount (t.concurrency * t.process)
        :: (List.range t.process.toNat).map (fun i : ℕ => .spawnChild (i : ℤ)), none)

/-! ### Model of NewShortContent (cases/contract/short_content.go lines 19-42) -/

/-- Go's `strconv.ParseUint(s, 10, 64)`, as a partial value: one or more
decimal digits (no sign accepted) whose value fits in 64 bits; anything else
is an error (on overflow Go returns the clamped value together with an error,
and the caller only checks the error). -/
def goParseUint64 (s : String) : Option ℕ :=
  if s.data = [] then none
  else if s.data.all Char.isDigit then
    let n := s.data.foldl (fun acc c => 10 * acc + (c.toNat - 48)) 0
    if n < 2 ^ 64 then some n else none
  else none

/-- Decision made by `NewShortContent` (short_content.go lines 19-42): the
configured payload length on success, or a construction error when the
`length` argument is missing or does not parse.  Since `n` is a `uint64`,
the guard `n <= 0 || n > 3000` is `n = 0 ∨ n > 3000`; when it holds the
length silently falls back to 64. -/
def newShortContent (args : String → Option String) : Except String ℕ :=
  match args "length" with
  | none => .error "params error: short content length not exist"
  | some lengthStr =>
    match goParseUint64 lengthStr with
    | none => .error "params error: invalid length"
    | some n => .ok (if n = 0 ∨ 3000 < n then 64 else n)

/-! ### Concrete streams used to instantiate the engine theorems -/

/-- Generator stream that always succeeds with a unit payload. -/
def genOkU : ℕ → GenResult Unit := fun _ => .ok ()

/-- Consume callback that always succeeds. -/
def consOkU : ℕ → Unit → Option String := fun _ _ => none

/-- Generator stream over `ℕ` that fails at iteration 2. -/
def genFail2 : ℕ → GenResult ℕ := fun k => if k < 2 then .ok k else .err "connection lost"

/-- Consume callback over `ℕ` that always succeeds. -/
def consOkN : ℕ → ℕ → Option String := fun _ _ => none

/-- Argument mapping holding only a `length` entry. -/
def argsLen (s : String) : String → Option String :=
  fun key => if key = "length" then some s else none

/-- Argument mapping with no entries. -/
def argsEmpty : String → Option String := fun _ => none

/-! ### Helper lemmas -/

/-! #### Evaluation lemmas for the float32 model -/

lemma roundNearestEven_eq_of_lt_half (x : ℚ) (m : ℤ) (h1 : (m : ℚ) ≤ x)
    (h2 : x < m + 1/2) : roundNearestEven x = m := by
  have hf : ⌊x⌋ = m := Int.floor_eq_iff.mpr ⟨h1, by linarith⟩
  simp only [roundNearestEven, hf]
  rw [if_pos (by linarith)]

lemma roundNearestEven_eq_of_gt_half (x : ℚ) (m : ℤ) (h1 : (m : ℚ) - 1/2 < x)
    (h2 : x < m) : roundNearestEven x = m := by
  have hf : ⌊x⌋ = m - 1 := Int.floor_eq_iff.mpr ⟨by push_cast; linarith, by push_cast; linarith⟩
  simp only [roundNearestEven, hf]
  rw [if_neg (by push_cast; linarith), if_pos (by push_cast; linarith)]
  omega

lemma floorLog2_eval (x : ℚ) (k : ℕ) (h1 : (2:ℚ) ^ k ≤ x) (h2 : x < (2:ℚ) ^ (k + 1)) :
    floorLog2 x = k := by
  have hx : 1 ≤ x := le_trans (one_le_pow₀ (by norm_num)) h1
  have hfl : (2:ℤ) ^ k ≤ ⌊x⌋ := Int.le_floor.mpr (by push_cast; exact h1)
  have hfu : ⌊x⌋ < (2:ℤ) ^ (k + 1) := Int.floor_lt.mpr (by push_cast; exact h2)
  have h0 : (0:ℤ) ≤ ⌊x⌋ := le_trans (by positivity) hfl
  have hge : 2 ^ k ≤ ⌊x⌋.toNat := by
    zify [Int.toNat_of_nonneg h0]
    exact hfl
  have hlt : ⌊x⌋.toNat < 2 ^ (k + 1) := by
    zify [Int.toNat_of_nonneg h0]
    exact hfu
  simp only [floorLog2, if_pos hx]
  exact_mod_cast Nat.log_eq_of_pow_le_of_lt_pow hge hlt

lemma toF32_eval (x : ℚ) (k : ℕ) (m : ℤ) (h1 : (2:ℚ) ^ k ≤ x)
    (h2 : x < (2:ℚ) ^ (k + 1))
    (hm : roundNearestEven (x * (2:ℚ) ^ ((23:ℤ) - k)) = m) :
    toF32 x = m * (2:ℚ) ^ ((k:ℤ) - 23) := by
  have hx : 0 < x := lt_of_lt_of_le (by positivity) h1
  simp only [toF32, toF32Pos]
  rw [if_neg hx.ne', if_pos hx, floorLog2_eval x k h1 h2,
    show -((k:ℤ) - 23) = (23:ℤ) - k by ring, hm]

/-- The Go constant `1.1` rounded to `float32` is exactly `9227469 / 2^23`. -/
lemma toF32_elevenTenths : toF32 (11/10) = 9227469 / 8388608 := by
  have h := toF32_eval (11/10) 0 9227469 (by norm_num) (by norm_num)
    (roundNearestEven_eq_of_gt_half _ 9227469 (by norm_num) (by norm_num))
  rw [h]
  norm_num

lemma toF32_50000 : toF32 50000 = 50000 := by
  have h := toF32_eval 50000 15 12800000 (by norm_num) (by norm_num)
    (roundNearestEven_eq_of_lt_half _ 12800000 (by norm_num) (by norm_num))
  rw [h]
  norm_num

lemma perWorkerQuota_1000000_20 : perWorkerQuota 1000000 20 = 55000 := by
  have hdiv : Int.tdiv 1000000 20 = 50000 := by decide
  have hp : toF32 (28835840625 / 524288 : ℚ) = 55000 := by
    have h := toF32_eval (28835840625 / 524288 : ℚ) 15 14080000 (by norm_num)
      (by norm_num)
      (roundNearestEven_eq_of_lt_half _ 14080000 (by norm_num) (by norm_num))
    rw [h]
    norm_num
  simp only [perWorkerQuota, hdiv, f32Mul, toF32_elevenTenths, intTrunc]
  norm_num [toF32_50000]
  rw [hp]
  norm_num [Int.floor_eq_iff]

lemma toF32_16777218 : toF32 16777218 = 16777218 := by
  have h := toF32_eval 16777218 24 8388609 (by norm_num) (by norm_num)
    (roundNearestEven_eq_of_lt_half _ 8388609 (by norm_num) (by norm_num))
  rw [h]
  norm_num

lemma perWorkerQuota_16777218_1 : perWorkerQuota 16777218 1 = 18454940 := by
  have hdiv : Int.tdiv 16777218 1 = 16777218 := by decide
  have hp : toF32 (77405629500621 / 4194304 : ℚ) = 18454940 := by
    have h := toF32_eval (77405629500621 / 4194304 : ℚ) 24 9227470 (by norm_num)
      (by norm_num)
      (roundNearestEven_eq_of_lt_half _ 9227470 (by norm_num) (by norm_num))
    rw [h]
    norm_num
  simp only [perWorkerQuota, hdiv, f32Mul, toF32_elevenTenths, intTrunc]
  norm_num [toF32_16777218]
  rw [hp]
  norm_num [Int.floor_eq_iff]

lemma specQuota_16777218_1 : specQuota 16777218 1 = 18454939 := by
  simp only [specQuota]
  rw [Int.floor_eq_iff]
  norm_num

lemma specQuota_0_1 : specQuota 0 1 = 0 := by
  simp [specQuota]

lemma toF32_zero : toF32 0 = 0 := by simp [toF32]

lemma perWorkerQuota_eq_zero (total concurrency : ℤ) (h0 : 0 ≤ total)
    (hlt : total < concurrency) : perWorkerQuota total concurrency = 0 := by
  have hdiv : Int.tdiv total concurrency = 0 := Int.tdiv_eq_zero_of_lt h0 hlt
  simp [perWorkerQuota, hdiv, f32Mul, toF32_zero, intTrunc]

lemma workerLoop_err_step {τ : Type} (gen : ℕ → GenResult τ) (cons : ℕ → τ → Option String)
    (total : ℤ) (c : ℕ) (e : String) (hx : gen c = .err e) :
    workerLoop gen cons total c = ([], .fatalGenerate e) := by
  rw [workerLoop, hx]

lemma workerLoop_encode_step {τ : Type} (gen : ℕ → GenResult τ) (cons : ℕ → τ → Option String)
    (total : ℤ) (c : ℕ) (x : τ) (e : String) (hx : gen c = .ok x) (hcx : cons c x = some e) :
    workerLoop gen cons total c = ([], .encodeFatal e) := by
  rw [workerLoop, hx]
  simp [hcx]

lemma workerLoop_ok_step {τ : Type} (gen : ℕ → GenResult τ) (cons : ℕ → τ → Option String)
    (total : ℤ) (c : ℕ) (x : τ) (hx : gen c = .ok x) (hcx : cons c x = none) :
    workerLoop gen cons total c =
      if (c : ℤ) + 1 ≥ total then ([x], .quotaReached)
      else (x :: (workerLoop gen cons total (c + 1)).1, (workerLoop gen cons total (c + 1)).2) := by
  rw [workerLoop, hx]
  simp [hcx]

/-- With every generation and consume succeeding, a worker started at count
`c` consumes exactly `max 1 (total.toNat - c)` further values and exits
through the quota check: the loop body always runs once before the first
check. -/
lemma workerLoop_allOk {τ : Type} (gen : ℕ → GenResult τ) (cons : ℕ → τ → Option String)
    (total : ℤ) (hg : ∀ k, ∃ x, gen k = .ok x) (hc : ∀ k x, cons k x = none) (c : ℕ) :
    (workerLoop gen cons total c).1.length = max 1 (total.toNat - c) ∧
      (workerLoop gen cons total c).2 = .quotaReached := by
  generalize hn : (total - (c : ℤ)).toNat = n
  induction n using Nat.strong_induction_on generalizing c with
  | _ n ih =>
    obtain ⟨x, hx⟩ := hg c
    rw [workerLoop_ok_step gen cons total c x hx (hc c x)]
    by_cases hq : (c : ℤ) + 1 ≥ total
    · rw [if_pos hq]
      constructor
      · simp only [List.length_singleton]
        omega
      · rfl
    · rw [if_neg hq]
      obtain ⟨ihl, _⟩ := ih (total - ((c : ℤ) + 1)).toNat (by omega) (c + 1) (by push_cast; omega)
      refine ⟨?_, by simpa using (ih (total - ((c : ℤ) + 1)).toNat (by omega) (c + 1)
        (by push_cast; omega)).2⟩
      simp only [List.length_cons, ihl]
      omega

/-- Whatever the generator and consume outcomes, a worker started at count `c`
never consumes more than `max 1 (total.toNat - c)` values. -/
lemma workerLoop_length_le {τ : Type} (gen : ℕ → GenResult τ) (cons : ℕ → τ → Option String)
    (total : ℤ) (c : ℕ) :
    (workerLoop gen cons total c).1.length ≤ max 1 (total.toNat - c) := by
  generalize hn : (total - (c : ℤ)).toNat = n
  induction n using Nat.strong_induction_on generalizing c with
  | _ n ih =>
    cases hx : gen c with
    | err e =>
      rw [workerLoop_err_step gen cons total c e hx]
      simp
    | ok x =>
      cases hcx : cons c x with
      | some e =>
        rw [workerLoop_encode_step gen cons total c x e hx hcx]
        simp
      | none =>
        rw [workerLoop_ok_step gen cons total c x hx hcx]
        by_cases hq : (c : ℤ) + 1 ≥ total
        · rw [if_pos hq]
          simp
        · rw [if_neg hq]
          have h := ih (total - ((c : ℤ) + 1)).toNat (by omega) (c + 1) (by push_cast; omega)
          simp only [List.length_cons]
          omega

/-- If generation and consume succeed for the first `f` iterations and the
`f`-th `Generate` call fails, a worker that can reach iteration `f` consumes
exactly the first `f` values and exits fatally; nothing of the failed
transaction is written. -/
lemma workerLoop_fatal {τ : Type} (gen : ℕ → GenResult τ) (cons : ℕ → τ → Option String)
    (total : ℤ) (f : ℕ) (e : String) (w : ℕ → τ)
    (hok : ∀ k, k < f → gen k = .ok (w k) ∧ cons k (w k) = none)
    (he : gen f = .err e) (hreach : f = 0 ∨ (f : ℤ) < total) (c : ℕ) (hc : c ≤ f) :
    workerLoop gen cons total c = ((List.range' c (f - c)).map w, .fatalGenerate e) := by
  generalize hn : f - c = n
  induction n using Nat.strong_induction_on generalizing c with
  | _ n ih =>
    rcases Nat.eq_or_lt_of_le hc with hcf | hcf
    · subst hcf
      rw [workerLoop_err_step gen cons total c e he]
      simp [hn.symm]
    · obtain ⟨hg, hcons⟩ := hok c hcf
      rw [workerLoop_ok_step gen cons total c (w c) hg hcons]
      have hf0 : f ≠ 0 := by omega
      have hft : (f : ℤ) < total := hreach.resolve_left hf0
      rw [if_neg (by omega)]
      rw [ih (f - (c + 1)) (by omega) (c + 1) (by omega) rfl]
      have hr : n = (f - (c + 1)) + 1 := by omega
      rw [hr, List.range'_succ, List.map_cons]


lemma decDigits_length_le (k : ℕ) (hk : 1 ≤ k) : ∀ n, n < 10 ^ k → (decDigits n).length ≤ k := by
  induction k with
  | zero => omega
  | succ k ih =>
    intro n hn
    by_cases h : n < 10
    · rw [decDigits, if_pos h]
      simp
    · rw [decDigits, if_neg h]
      have hk1 : 1 ≤ k := by
        rcases Nat.eq_zero_or_pos k with h0 | h1
        · subst h0
          simp at hn
          omega
        · exact h1
      have hdiv : n / 10 < 10 ^ k := by
        rw [Nat.div_lt_iff_lt_mul (by norm_num)]
        calc n < 10 ^ (k + 1) := hn
          _ = 10 ^ k * 10 := by ring
      have := ih hk1 (n / 10) hdiv
      simp only [List.length_append, List.length_singleton]
      omega

lemma fmt04d_length (idx : ℤ) (h0 : 0 ≤ idx) (h : idx < 10000) :
    (fmt04d idx).length = 4 := by
  rw [fmt04d, if_neg (by omega)]
  have hlen : (decDigits idx.toNat).length ≤ 4 :=
    decDigits_length_le 4 (by norm_num) idx.toNat (by omega)
  have hmk : (String.mk (zeroPad 4 (decDigits idx.toNat))).length
      = (zeroPad 4 (decDigits idx.toNat)).length := rfl
  rw [hmk, zeroPad, List.length_append, List.length_replicate]
  omega

lemma runShardIndices_eq (P C : ℕ) : runShardIndices P C = List.range (P * C) := by
  induction P with
  | zero => simp [runShardIndices]
  | succ p ih =>
    have h1 : runShardIndices (p + 1) C = runShardIndices p C ++ childShardIndices p C := by
      rw [runShardIndices, List.range_succ]
      simp [runShardIndices]
    rw [h1, ih, Nat.succ_mul, List.range_add, childShardIndices]

lemma childShardIndices_drop (c C : ℕ) :
    childShardIndices c C = (List.range ((c + 1) * C)).drop (c * C) := by
  rw [Nat.succ_mul, List.range_add]
  have h := List.drop_left (List.range (c * C)) ((List.range C).map (fun x => c * C + x))
  rw [List.length_range] at h
  rw [h]
  rfl

lemma orchestrate_mem_failed (rs : List ChildOutcome) (e : String)
    (h : ChildOutcome.failed e ∈ rs) : ∃ e', orchestrate rs = .aborted e' := by
  induction rs with
  | nil => cases h
  | cons r rest ih =>
    cases r with
    | success =>
      rcases List.mem_cons.mp h with h1 | h2
      · cases h1
      · simpa [orchestrate, childWait] using ih h2
    | failed e' => exact ⟨e', rfl⟩

lemma contractShardFiles_eq (t : ContractCommand) (hch : 0 ≤ t.child)
    (hC : 0 ≤ t.concurrency) :
    contractShardFiles t
      = (childShardIndices t.child.toNat t.concurrency.toNat).map (fun i : ℕ => shardFilename (i : ℤ)) := by
  rw [contractShardFiles, childShardIndices, List.map_map]
  refine List.map_congr_left fun i _ => ?_
  have h1 : ((t.child.toNat * t.concurrency.toNat + i : ℕ) : ℤ) = t.child * t.concurrency + i := by
    push_cast [Int.toNat_of_nonneg hch, Int.toNat_of_nonneg hC]
    ring
  simp only [Function.comp_apply, h1]

/-! ### Claims -/

/-- C1 (amended).  For every `runTotal >= 0` and `concurrency > 0`, a
single-process run (`process = 1`) dispatches straight to `generate`, which
creates exactly `concurrency` shard files; when every generation and encode
succeeds, each worker's shard receives exactly `max 1 q` records, where
`q = int(float32(runTotal/concurrency) * 1.1)` is the per-worker quota the
code computes in `float32` arithmetic.  In the scenario `runTotal = 1000000`,
`concurrency = 20` this quota is `55000 = floor(50000 * 1.1)`, so each of the
20 shards contains exactly 55000 records. -/
theorem claim_c1_amended (t : ContractCommand) (h1 : t.process = 1)
    (hT : 0 ≤ t.total) (hC : 0 < t.concurrency)
    {τ : Type} (gen : ℕ → ℕ → GenResult τ) (cons : ℕ → ℕ → τ → Option String)
    (hg : ∀ i k, ∃ x, gen i k = .ok x) (hc : ∀ i k x, cons i k x = none) :
    contractDispatch t = .runGenerate ∧
    (contractShardFiles t).length = t.concurrency.toNat ∧
    (∀ i : ℕ, i < t.concurrency.toNat →
      (workerLoop (gen i) (cons i) (perWorkerQuota t.total t.concurrency) 0).1.length
        = max 1 (perWorkerQuota t.total t.concurrency).toNat) ∧
    (t.total = 1000000 → t.concurrency = 20 →
      max 1 (perWorkerQuota t.total t.concurrency).toNat = 55000) := by
  have _ := hT
  have _ := hC
  refine ⟨by simp [contractDispatch, h1], by simp [contractShardFiles], ?_, ?_⟩
  · intro i _
    have h := workerLoop_allOk (gen i) (cons i) (perWorkerQuota t.total t.concurrency)
      (hg i) (hc i) 0
    simpa using h.1
  · intro h1M h20
    rw [h1M, h20, perWorkerQuota_1000000_20]
    decide

/-- Witness for C1 (amended) at `runTotal = 1000000`, `concurrency = 20`,
`process = 1`: 20 shard files, each worker writing exactly 55000 records. -/
theorem claim_c1_amended_witness :
    (ContractCommand.mk "127.0.0.1:37101" 1000000 20 "./data/evidence" 1 0 200).process = 1 ∧
    (0:ℤ) ≤ 1000000 ∧ (0:ℤ) < 20 ∧
    contractDispatch (ContractCommand.mk "127.0.0.1:37101" 1000000 20 "./data/evidence" 1 0 200)
      = .runGenerate ∧
    (contractShardFiles (ContractCommand.mk "127.0.0.1:37101" 1000000 20 "./data/evidence" 1 0 200)).length
      = 20 ∧
    (workerLoop genOkU consOkU (perWorkerQuota 1000000 20) 0).1.length
      = max 1 (perWorkerQuota 1000000 20).toNat ∧
    max 1 (perWorkerQuota 1000000 20).toNat = 55000 := by
  have h := claim_c1_amended (ContractCommand.mk "127.0.0.1:37101" 1000000 20 "./data/evidence" 1 0 200)
    rfl (by decide) (by decide) (fun _ => genOkU) (fun _ => consOkU)
    (fun _ _ => ⟨(), rfl⟩) (fun _ _ _ => rfl)
  exact ⟨rfl, by decide, by decide, h.1, h.2.1, h.2.2.1 0 (by decide), h.2.2.2 rfl rfl⟩

/-- C1 is false as stated.  First failing input: `runTotal = 0`,
`concurrency = 1` — the claimed per-shard count `floor((0/1)*1.1) = 0`, but
the worker loop checks its quota only after an iteration, so the shard
receives 1 record.  Second failing input: `runTotal = 16777218`,
`concurrency = 1` — the code's `float32` arithmetic yields quota 18454940
while the claimed exact `floor((runTotal/concurrency) * 1.1)` is 18454939. -/
theorem claim_c1_counterexample :
    (workerLoop genOkU consOkU (perWorkerQuota 0 1) 0).1.length = 1 ∧
    specQuota 0 1 = 0 ∧
    (workerLoop genOkU consOkU (perWorkerQuota 0 1) 0).1.length ≠ (specQuota 0 1).toNat ∧
    perWorkerQuota 16777218 1 = 18454940 ∧
    specQuota 16777218 1 = 18454939 ∧
    perWorkerQuota 16777218 1 ≠ specQuota 16777218 1 := by
  have hq : perWorkerQuota 0 1 = 0 := perWorkerQuota_eq_zero 0 1 le_rfl (by norm_num)
  have h1 : workerLoop genOkU consOkU (perWorkerQuota 0 1) 0 = ([()], .quotaReached) := by
    rw [hq, workerLoop_ok_step genOkU consOkU 0 0 () rfl rfl, if_pos (by omega)]
  refine ⟨by rw [h1]; rfl, specQuota_0_1, ?_, perWorkerQuota_16777218_1, specQuota_16777218_1, ?_⟩
  · rw [h1, specQuota_0_1]
    decide
  · rw [perWorkerQuota_16777218_1, specQuota_16777218_1]
    decide

/-- C2.  For every `process_count >= 1` and `concurrency > 0`, the shard
indices used across the run (child `c` contributing `c*C + i` for workers
`i < C`) form exactly the dense range `0 .. P*C - 1`, hence are pairwise
distinct; the shard files of one process are named by those indices through
`shardFilename`, which appends the zero-padded index (4 characters whenever
the index is below 10000) to the case name. -/
theorem claim_c2 (P C : ℕ) (hP : 1 ≤ P) (hC : 0 < C) :
    runShardIndices P C = List.range (P * C) ∧
    (runShardIndices P C).Nodup ∧
    (∀ idx : ℤ, shardFilename idx = "short_content.dat." ++ fmt04d idx) ∧
    (∀ idx : ℤ, 0 ≤ idx → idx < 10000 → (fmt04d idx).length = 4) ∧
    (∀ t : ContractCommand, 0 ≤ t.child → 0 ≤ t.concurrency →
      contractShardFiles t
        = (childShardIndices t.child.toNat t.concurrency.toNat).map
            (fun i : ℕ => shardFilename (i : ℤ))) := by
  have _ := hP
  have _ := hC
  refine ⟨runShardIndices_eq P C, ?_, fun _ => rfl, fmt04d_length, contractShardFiles_eq⟩
  rw [runShardIndices_eq]
  exact List.nodup_range _

/-- Witness for C2 at `P = 5`, `C = 20`: the 100 shard indices are exactly
`0..99`, and index 40 is rendered as the file name suffix `0040`. -/
theorem claim_c2_witness :
    (1:ℕ) ≤ 5 ∧ (0:ℕ) < 20 ∧
    runShardIndices 5 20 = List.range 100 ∧
    (runShardIndices 5 20).Nodup ∧
    shardFilename 40 = "short_content.dat." ++ fmt04d 40 ∧
    (fmt04d 40).length = 4 ∧
    fmt04d 40 = "0040" := by
  have h := claim_c2 5 20 (by decide) (by decide)
  refine ⟨by decide, by decide, h.1, h.2.1, h.2.2.1 40, h.2.2.2.1 40 (by decide) (by decide), ?_⟩
  simp [fmt04d, decDigits, zeroPad]

/-- C3.  When `process_count > 1`, `RunE` takes the orchestrator branch and
spawns exactly `process_count` children, one per child index
`0..process_count-1`; each child argv re-invokes the `contract` subcommand
with `--total` equal to `runTotal/process` (Go integer division), the same
`--concurrency` and `--output`, `--process` pinned to `"1"`, and its own
`--child` index.  A child running as index `c` then uses exactly the shard
indices `c*C .. (c+1)*C - 1`. -/
theorem claim_c3 (t : ContractCommand) (hP : 1 < t.process) :
    contractDispatch t = .runOrchestrator ∧
    (contractChildren t).length = t.process.toNat ∧
    (∀ i : ℕ, i < t.process.toNat →
      (contractChildren t)[i]? =
        some ["contract",
              "--total", intRepr (Int.tdiv t.total t.process),
              "--length", intRepr t.length,
              "--output", t.output,
              "--concurrency", intRepr t.concurrency,
              "--process", "1",
              "--child", intRepr (i : ℤ)]) ∧
    (∀ c C : ℕ, childShardIndices c C = (List.range ((c + 1) * C)).drop (c * C)) := by
  refine ⟨by rw [contractDispatch, if_neg (by omega)], by simp [contractChildren], ?_,
    childShardIndices_drop⟩
  intro i hi
  simp [contractChildren, List.getElem?_map, List.getElem?_range hi, contractSpawnArgv]

/-- Witness for C3 at `runTotal = 1000000`, `concurrency = 20`,
`process = 5`: five children, child 2 receiving `--total 200000` and
`--child 2`, and child 2's shard indices being exactly `40..59`. -/
theorem claim_c3_witness :
    (1:ℤ) < 5 ∧
    contractDispatch (ContractCommand.mk "127.0.0.1:37101" 1000000 20 "./data/evidence" 5 0 200)
      = .runOrchestrator ∧
    (contractChildren (ContractCommand.mk "127.0.0.1:37101" 1000000 20 "./data/evidence" 5 0 200)).length
      = 5 ∧
    (contractChildren (ContractCommand.mk "127.0.0.1:37101" 1000000 20 "./data/evidence" 5 0 200))[2]? =
      some ["contract",
            "--total", "200000",
            "--length", "200",
            "--output", "./data/evidence",
            "--concurrency", "20",
            "--process", "1",
            "--child", "2"] ∧
    childShardIndices 2 20 = (List.range 60).drop 40 ∧
    childShardIndices 2 20 = [40, 41, 42, 43, 44, 45, 46, 47, 48, 49,
                              50, 51, 52, 53, 54, 55, 56, 57, 58, 59] := by
  have h := claim_c3 (ContractCommand.mk "127.0.0.1:37101" 1000000 20 "./data/evidence" 5 0 200)
    (by decide)
  refine ⟨by decide, h.1, h.2.1, ?_, h.2.2.2 2 20, by decide⟩
  have h2 := h.2.2.1 2 (by decide)
  have ht : intRepr (Int.tdiv 1000000 5) = "200000" := by
    rw [show Int.tdiv (1000000:ℤ) 5 = 200000 from by decide]
    simp [intRepr, decDigits]
  have hl : intRepr (200:ℤ) = "200" := by simp [intRepr, decDigits]
  have hc : intRepr (20:ℤ) = "20" := by simp [intRepr, decDigits]
  have hch : intRepr ((2:ℕ):ℤ) = "2" := by simp [intRepr, decDigits]
  rw [ht, hl, hc, hch] at h2
  exact h2

/-- C4 (amended).  For every per-worker quota value and every stream of
generator and consume outcomes, a worker performs at most `max 1 quota`
successful iterations before returning: at most `quota` whenever
`quota >= 1`, but one iteration always runs before the first quota check,
so a quota of 0 still yields one record. -/
theorem claim_c4_amended {τ : Type} (gen : ℕ → GenResult τ) (cons : ℕ → τ → Option String)
    (total : ℤ) :
    (workerLoop gen cons total 0).1.length ≤ max 1 total.toNat ∧
    (1 ≤ total → (workerLoop gen cons total 0).1.length ≤ total.toNat) := by
  have h := workerLoop_length_le gen cons total 0
  constructor
  · simpa using h
  · intro h1
    simp only [Nat.sub_zero] at h
    omega

/-- Witness for C4 (amended) at quota 5 with an always-succeeding stream. -/
theorem claim_c4_amended_witness :
    (workerLoop genOkU consOkU 5 0).1.length ≤ max 1 (5:ℤ).toNat ∧
    (1:ℤ) ≤ 5 ∧
    (workerLoop genOkU consOkU 5 0).1.length ≤ (5:ℤ).toNat :=
  ⟨(claim_c4_amended genOkU consOkU 5).1, by decide,
    (claim_c4_amended genOkU consOkU 5).2 (by decide)⟩

/-- C4 is false as stated for quota 0: the worker loop checks `count >= total`
only after generating and consuming once, so a worker with quota 0 produces
one record, exceeding its quota. -/
theorem claim_c4_counterexample :
    (workerLoop genOkU consOkU 0 0).1.length = 1 ∧
    ¬ (workerLoop genOkU consOkU 0 0).1.length ≤ (0:ℤ).toNat := by
  have h1 : workerLoop genOkU consOkU 0 0 = ([()], .quotaReached) := by
    rw [workerLoop_ok_step genOkU consOkU 0 0 () rfl rfl, if_pos (by omega)]
  rw [h1]
  exact ⟨rfl, by decide⟩

/-- C5.  If the first `f` iterations succeed and the `f`-th `Generate` call
returns an error, a worker that can reach iteration `f` writes exactly the
first `f` records — nothing of the failed transaction reaches its shard — and
exits through `log.Fatalf` (modelled by `WorkerExit.fatalGenerate`), which
terminates the process: no retry, no skip-and-continue.  Likewise a failing
consume/encode callback writes nothing further and exits through the
process-fatal `WorkerExit.encodeFatal`. -/
theorem claim_c5 {τ : Type} (gen : ℕ → GenResult τ) (cons : ℕ → τ → Option String)
    (total : ℤ) (f : ℕ) (e : String) (w : ℕ → τ)
    (hok : ∀ k, k < f → gen k = .ok (w k) ∧ cons k (w k) = none)
    (he : gen f = .err e) (hreach : f = 0 ∨ (f : ℤ) < total) :
    workerLoop gen cons total 0 = ((List.range f).map w, .fatalGenerate e) ∧
    (workerLoop gen cons total 0).1.length = f ∧
    (∀ {τ2 : Type} (gen2 : ℕ → GenResult τ2) (cons2 : ℕ → τ2 → Option String)
      (c : ℕ) (x : τ2) (e2 : String), gen2 c = .ok x → cons2 c x = some e2 →
      workerLoop gen2 cons2 total c = ([], .encodeFatal e2)) := by
  have h := workerLoop_fatal gen cons total f e w hok he hreach 0 (Nat.zero_le f)
  rw [Nat.sub_zero, ← List.range_eq_range'] at h
  refine ⟨h, by rw [h]; simp, ?_⟩
  intro τ2 gen2 cons2 c x e2 hx hcx
  exact workerLoop_encode_step gen2 cons2 total c x e2 hx hcx

/-- Witness for C5: a stream failing at iteration 2 under quota 10 yields
exactly the records `[0, 1]` and a process-fatal exit. -/
theorem claim_c5_witness :
    (∀ k, k < 2 → genFail2 k = .ok k ∧ consOkN k k = none) ∧
    genFail2 2 = .err "connection lost" ∧
    ((2:ℕ) = 0 ∨ (2:ℤ) < 10) ∧
    workerLoop genFail2 consOkN 10 0 = ([0, 1], .fatalGenerate "connection lost") := by
  have h := claim_c5 genFail2 consOkN 10 2 "connection lost" (fun k => k)
    (by decide) (by decide) (by norm_num)
  exact ⟨by decide, by decide, by norm_num, h.1.trans (by decide)⟩

/-- C6.  A spawned child process exiting with an error makes its waiting
goroutine panic, which terminates the orchestrating process with a nonzero
exit status: the run aborts, the failure propagates, and no restart is
attempted (the model has no other outcome for a failed child). -/
theorem claim_c6 (rs : List ChildOutcome) (e : String)
    (h : ChildOutcome.failed e ∈ rs) :
    childWait (ChildOutcome.failed e) = .aborted e ∧
    (∃ e', orchestrate rs = .aborted e') ∧
    orchestrate rs ≠ .completed := by
  obtain ⟨e', he'⟩ := orchestrate_mem_failed rs e h
  refine ⟨rfl, ⟨e', he'⟩, ?_⟩
  rw [he']
  intro hcon
  cases hcon

/-- Witness for C6: one successful child and one failing child abort the
whole run. -/
theorem claim_c6_witness :
    ChildOutcome.failed "exit status 1" ∈ [ChildOutcome.success, ChildOutcome.failed "exit status 1"] ∧
    childWait (ChildOutcome.failed "exit status 1") = .aborted "exit status 1" ∧
    (∃ e', orchestrate [ChildOutcome.success, ChildOutcome.failed "exit status 1"] = .aborted e') ∧
    orchestrate [ChildOutcome.success, ChildOutcome.failed "exit status 1"] ≠ .completed := by
  have h := claim_c6 [ChildOutcome.success, ChildOutcome.failed "exit status 1"]
    "exit status 1" (by decide)
  exact ⟨by decide, h.1, h.2.1, h.2.2⟩

/-- C7.  In a multi-process tx run (`process > 1`), the Funding Splitter is
invoked exactly once, as the very first step (before any child spawn), with
account count `concurrency * process`; if it returns an error, `RunE` returns
that error and no child is spawned, and otherwise exactly `process` children
are spawned. -/
theorem claim_c7 (t : TransactionCommand) (hP : 1 < t.process)
    (splitRes genRes : Option String) :
    (txRunE t splitRes genRes).1.filter TxStep.isSplit
      = [.splitTx t.host t.amount (t.concurrency * t.process)] ∧
    (txRunE t splitRes genRes).1.head?
      = some (.splitTx t.host t.amount (t.concurrency * t.process)) ∧
    (∀ e, splitRes = some e →
      (txRunE t splitRes genRes).2 = some e ∧
      (txRunE t splitRes genRes).1.filter TxStep.isSpawn = []) ∧
    (splitRes = none →
      ((txRunE t splitRes genRes).1.filter TxStep.isSpawn).length = t.process.toNat) := by
  have hne : t.process ≠ 1 := by omega
  cases splitRes with
  | some e =>
    refine ⟨?_, ?_, ?_, by intro hcon; cases hcon⟩
    · simp [txRunE, hne, TxStep.isSplit]
    · simp [txRunE, hne]
    · intro e' he'
      cases he'
      constructor
      · simp [txRunE, hne]
      · simp [txRunE, hne, TxStep.isSpawn]
  | none =>
    refine ⟨?_, ?_, ?_, ?_⟩
    · simp [txRunE, hne, TxStep.isSplit, List.filter_map]
    · simp [txRunE, hne]
    · intro e hcon
      cases hcon
    · intro _
      have hpred : (TxStep.isSpawn ∘ fun i : ℕ => TxStep.spawnChild (i : ℤ)) = fun _ => true :=
        funext fun _ => rfl
      simp [txRunE, hne, TxStep.isSpawn, List.filter_map, hpred]

/-- Witness for C7 at `concurrency = 20`, `process = 5` with a failing
splitter: the single split step requests `100` accounts, the error
propagates, and no child is spawned. -/
theorem claim_c7_witness :
    (1:ℤ) < 5 ∧
    (txRunE (TransactionCommand.mk "localhost:37101" "100000000" 1000000 20 "../data/transaction" 5 0)
        (some "split failed") none).1.filter TxStep.isSplit
      = [.splitTx "localhost:37101" "100000000" 100] ∧
    (txRunE (TransactionCommand.mk "localhost:37101" "100000000" 1000000 20 "../data/transaction" 5 0)
        (some "split failed") none).1.head?
      = some (.splitTx "localhost:37101" "100000000" 100) ∧
    (txRunE (TransactionCommand.mk "localhost:37101" "100000000" 1000000 20 "../data/transaction" 5 0)
        (some "split failed") none).2 = some "split failed" ∧
    (txRunE (TransactionCommand.mk "localhost:37101" "100000000" 1000000 20 "../data/transaction" 5 0)
        (some "split failed") none).1.filter TxStep.isSpawn = [] := by
  have h := claim_c7
    (TransactionCommand.mk "localhost:37101" "100000000" 1000000 20 "../data/transaction" 5 0)
    (by decide) (some "split failed") none
  have h3 := h.2.2.1 "split failed" rfl
  exact ⟨by decide, h.1, h.2.1, h3.1, h3.2⟩

/-- C8.  `NewShortContent` fails (before any work starts) when the `length`
argument is absent or does not parse as an unsigned integer; when the parsed
value `n` is 0 or exceeds 3000 it succeeds with the silent fallback length
64; otherwise the configured length is `n`. -/
theorem claim_c8 (args : String → Option String) :
    (args "length" = none → ∃ msg, newShortContent args = .error msg) ∧
    (∀ s, args "length" = some s → goParseUint64 s = none →
      ∃ msg, newShortContent args = .error msg) ∧
    (∀ s n, args "length" = some s → goParseUint64 s = some n → (n = 0 ∨ 3000 < n) →
      newShortContent args = .ok 64) ∧
    (∀ s n, args "length" = some s → goParseUint64 s = some n → ¬(n = 0 ∨ 3000 < n) →
      newShortContent args = .ok n) := by
  refine ⟨?_, ?_, ?_, ?_⟩
  · intro h
    exact ⟨_, by rw [newShortContent, h]⟩
  · intro s hs hp
    refine ⟨"params error: invalid length", ?_⟩
    rw [newShortContent, hs]
    simp [hp]
  · intro s n hs hp hn
    rw [newShortContent, hs]
    simp [hp, hn]
  · intro s n hs hp hn
    rw [newShortContent, hs]
    simp [hp, hn]

/-- Witness for C8: `length=5000` and `length=0` fall back to 64,
`length=1024` is kept, a non-numeric value and a missing key fail. -/
theorem claim_c8_witness :
    goParseUint64 "5000" = some 5000 ∧
    newShortContent (argsLen "5000") = .ok 64 ∧
    goParseUint64 "0" = some 0 ∧
    newShortContent (argsLen "0") = .ok 64 ∧
    goParseUint64 "1024" = some 1024 ∧
    newShortContent (argsLen "1024") = .ok 1024 ∧
    goParseUint64 "12cats" = none ∧
    (∃ msg, newShortContent (argsLen "12cats") = .error msg) ∧
    (∃ msg, newShortContent argsEmpty = .error msg) := by
  refine ⟨by decide,
    (claim_c8 (argsLen "5000")).2.2.1 "5000" 5000 rfl (by decide) (by decide),
    by decide,
    (claim_c8 (argsLen "0")).2.2.1 "0" 0 rfl (by decide) (by decide),
    by decide,
    (claim_c8 (argsLen "1024")).2.2.2 "1024" 1024 rfl (by decide) (by decide),
    by decide,
    (claim_c8 (argsLen "12cats")).2.1 "12cats" rfl (by decide),
    (claim_c8 argsEmpty).1 rfl⟩

/-- C9.  Whenever `0 <= runTotal < concurrency`, the per-worker quota the
code computes is 0; and for any quota `total <= 0`, a worker still runs one
generate/consume iteration before the quota check, so its shard receives
exactly one record. -/
theorem claim_c9 (rT C : ℤ) (h0 : 0 ≤ rT) (hlt : rT < C) {τ : Type}
    (gen : ℕ → GenResult τ) (cons : ℕ → τ → Option String) (x : τ)
    (hg : gen 0 = .ok x) (hc : cons 0 x = none) :
    perWorkerQuota rT C = 0 ∧
    workerLoop gen cons (perWorkerQuota rT C) 0 = ([x], .quotaReached) ∧
    (∀ total : ℤ, total ≤ 0 → workerLoop gen cons total 0 = ([x], .quotaReached)) := by
  have hq := perWorkerQuota_eq_zero rT C h0 hlt
  have hone : ∀ total : ℤ, total ≤ 1 → workerLoop gen cons total 0 = ([x], .quotaReached) := by
    intro total ht
    rw [workerLoop_ok_step gen cons total 0 x hg hc, if_pos (by omega)]
  exact ⟨hq, by rw [hq]; exact hone 0 (by norm_num), fun total ht => hone total (by omega)⟩

/-- Witness for C9 at `runTotal = 5`, `concurrency = 20`: the quota is 0 and
the worker still writes exactly one record (also at the explicit quota -3). -/
theorem claim_c9_witness :
    (0:ℤ) ≤ 5 ∧ (5:ℤ) < 20 ∧ genOkU 0 = .ok () ∧ consOkU 0 () = none ∧
    perWorkerQuota 5 20 = 0 ∧
    workerLoop genOkU consOkU (perWorkerQuota 5 20) 0 = ([()], .quotaReached) ∧
    workerLoop genOkU consOkU (-3) 0 = ([()], .quotaReached) := by
  have h := claim_c9 5 20 (by decide) (by decide) genOkU consOkU () rfl rfl
  exact ⟨by decide, by decide, rfl, rfl, h.1, h.2.1, h.2.2 (-3) (by decide)⟩

/-- C10.  The generator configuration built by `ContractCommand.generate` is
unchanged by the `--host` and `--length` flag values: its host is the
hardcoded `"127.0.0.1:37101"`, its `length` argument the hardcoded `"1024"`;
and the argv built by `spawn` does not depend on the host flag either (no
`--host` is forwarded to children). -/
theorem claim_c10 (t : ContractCommand) (h : String) (l c : ℤ) :
    contractGenerateConfig { t with host := h, length := l } = contractGenerateConfig t ∧
    (contractGenerateConfig t).host = "127.0.0.1:37101" ∧
    (contractGenerateConfig t).args.lookup "length" = some "1024" ∧
    contractSpawnArgv { t with host := h } c = contractSpawnArgv t c :=
  ⟨rfl, rfl, rfl, rfl⟩

end XBench
